import Mathlib

/-!
Verification development for the nirius daemon (a companion daemon for the
niri compositor).  The Rust sources are shallowly embedded: the shared state
store (`src/state.rs`), the command engine (`src/cmds.rs`) and the event
handler (`src/daemon.rs`) become pure Lean functions; the compositor IPC and
the regex engine are external collaborators and are passed in as an explicit
environment.  Machine integers (`u64` window ids, `u8` workspace indices) are
modelled as `Nat`: the code never performs arithmetic that could overflow
(ids are compositor-assigned and only compared, the single `idx + 1` is on a
tiny count of workspaces per output).
-/

namespace Nirius

/-- A compositor window as used by the code (`niri_ipc::Window`). -/
structure Window where
  id : Nat
  app_id : Option String
  title : Option String
  workspace_id : Option Nat
  is_focused : Bool
  is_floating : Bool
deriving DecidableEq

/-- A compositor workspace as used by the code (`niri_ipc::Workspace`). -/
structure Workspace where
  id : Nat
  idx : Nat
  output : Option String
  is_focused : Bool
deriving DecidableEq

/-- The daemon state (`State` in `src/state.rs`).  The field
`already_focused_win_ids` (the cycle memory) is the one manipulated through
`STATE` by `src/cmds.rs` (`state.already_focused_win_ids` there); the struct
declaration in `src/state.rs` omits it, so it is included here exactly as the
command code uses it.  The `VecDeque` of windows and the `HashMap` of marks
become a list and an association list (`push_back` is append; `entry` inserts
at the end when absent). -/
structure State where
  all_windows : List Window
  all_workspaces : List Workspace
  follow_mode_win_ids : List Nat
  scratchpad_win_ids : List Nat
  mark_to_win_ids : List (String × List Nat)
  already_focused_win_ids : List Nat
deriving DecidableEq

/-- The empty initial state (the `LazyLock` initializer in `src/state.rs`). -/
def State.empty : State :=
  { all_windows := []
    all_workspaces := []
    follow_mode_win_ids := []
    scratchpad_win_ids := []
    mark_to_win_ids := []
    already_focused_win_ids := [] }

/-- `State::get_focused_win_id` from `src/state.rs`. -/
def State.get_focused_win_id (st : State) : Option Nat :=
  (st.all_windows.find? (fun w => w.is_focused)).map Window.id

/-- Clearing every window's focused flag (`iter_mut().for_each(|w| w.is_focused = false)`). -/
def clearFocusFlags (ws : List Window) : List Window :=
  ws.map (fun w => { w with is_focused := false })

/-- `State::register_window` from `src/state.rs`: if a window with the same id
exists, optionally clear all focus flags (when the incoming window is focused)
and replace it in place; otherwise append it at the back. -/
def State.register_window (st : State) (win : Window) : Except String String × State :=
  match st.all_windows.findIdx? (fun w => w.id == win.id) with
  | some idx =>
    let ws := if win.is_focused then clearFocusFlags st.all_windows else st.all_windows
    (Except.ok ("Updated window " ++ toString win.id ++ "."),
     { st with all_windows := ws.set idx win })
  | none =>
    (Except.ok ("Registered window " ++ toString win.id ++ ". Currently managing "
        ++ toString (st.all_windows.length + 1) ++ " windows."),
     { st with all_windows := st.all_windows ++ [win] })

/-- `State::remove_window` from `src/state.rs`: retain-filters the window list,
the follow-mode list, the scratchpad list, and every mark's id list.  It does
not touch `already_focused_win_ids`. -/
def State.remove_window (st : State) (id : Nat) : Except String String × State :=
  (Except.ok ("Removed window with id " ++ toString id ++ ". Currently managing "
      ++ toString (st.all_windows.filter (fun w => w.id != id)).length ++ " windows."),
   { st with
     all_windows := st.all_windows.filter (fun w => w.id != id)
     follow_mode_win_ids := st.follow_mode_win_ids.filter (fun i => i != id)
     scratchpad_win_ids := st.scratchpad_win_ids.filter (fun i => i != id)
     mark_to_win_ids := st.mark_to_win_ids.map (fun p => (p.1, p.2.filter (fun i => i != id))) })

/-- `State::window_focus_changed` from `src/state.rs`: set each window's
focused flag to `id == w.id`, then move the focused window (if any) to the
back of the deque. -/
def State.window_focus_changed (st : State) (opt_id : Option Nat) : Except String String × State :=
  match opt_id with
  | some id =>
    let ws := st.all_windows.map (fun w => { w with is_focused := w.id == id })
    match ws.findIdx? (fun w => w.is_focused) with
    | some idx =>
      match ws[idx]? with
      | some win =>
        (Except.ok ("Updated focus to window " ++ toString win.id ++ "."),
         { st with all_windows := ws.eraseIdx idx ++ [win] })
      | none =>
        (Except.error ("Could not remove window at index " ++ toString idx ++ "."),
         { st with all_windows := ws })
    | none =>
      (Except.ok "Updated focus (no window is focused).", { st with all_windows := ws })
  | none =>
    (Except.ok "No window has focus anymore.",
     { st with all_windows := clearFocusFlags st.all_windows })

/-- `State::workspaces_changed` from `src/state.rs`. -/
def State.workspaces_changed (st : State) (workspaces : List Workspace) :
    Except String String × State :=
  (Except.ok "Updated all workspaces.", { st with all_workspaces := workspaces })

/-- `State::workspace_focused` from `src/state.rs`. -/
def State.workspace_focused (st : State) (id : Nat) : State :=
  { st with all_workspaces := st.all_workspaces.map (fun ws => { ws with is_focused := ws.id == id }) }

/-- `State::get_focused_workspace` from `src/state.rs`. -/
def State.get_focused_workspace (st : State) : Option Workspace :=
  st.all_workspaces.find? (fun ws => ws.is_focused)

/-- `State::get_bottom_workspace_id_and_idx_of_output` from `src/state.rs`:
the workspace on the given output with the maximum index (`Iterator::max_by`
keeps the last of equally-maximal elements, hence `≤` in the fold). -/
def State.get_bottom_workspace_id_and_idx_of_output (st : State) (output : String) :
    Option (Nat × Nat) :=
  ((st.all_workspaces.filter (fun ws => ws.output == some output)).foldl
      (fun acc ws =>
        match acc with
        | none => some ws
        | some m => if m.idx ≤ ws.idx then some ws else some m)
      none).map (fun ws => (ws.id, ws.idx))

/-- One compositor action (`niri_ipc::Action` variants the code issues). -/
inductive NAction where
  | FocusWindow (id : Nat)
  | Spawn (command : List String)
  | MoveWindowToWorkspace (window_id : Nat) (workspace_id : Nat) (focus : Bool)
  | ToggleWindowFloating (id : Nat)
deriving DecidableEq

/-- The external collaborators of the command engine: the compositor IPC
(`ipc::query_niri`, modelled per request kind, with `Except` covering both a
transport error and an unexpected-reply error) and the regex engine
(`Regex::new(rx).is_match(text)` becomes `rmatch rx text`).
`focusedWindowResp` is the modelled result of `get_focused_window` in
`src/cmds.rs` (`window.ok_or("No focused window")` folded in). -/
structure Env where
  windowsResp : Except String (List Window)
  workspacesResp : Except String (List Workspace)
  focusedWindowResp : Except String Window
  rmatch : String → String → Bool
  act : NAction → Except String Unit

/-- The match options of `src/cmds.rs` (`MatchOptions`). -/
structure MatchOptions where
  app_id : Option String
  title : Option String
deriving DecidableEq

/-- The command enum of `src/cmds.rs` (`NiriusCmd`). -/
inductive NiriusCmd where
  | Focus (match_opts : MatchOptions)
  | FocusOrSpawn (match_opts : MatchOptions) (command : List String)
  | MoveToCurrentWorkspace (match_opts : MatchOptions) (focus : Bool)
  | MoveToCurrentWorkspaceOrSpawn (match_opts : MatchOptions) (focus : Bool) (command : List String)
  | Nop
  | ToggleFollowMode
  | ToggleMark (mark : Option String)
  | FocusMarked (mark : Option String)
  | ListMarked (mark : Option String) (all : Bool)
deriving DecidableEq

/-- `DEFAULT_MARK` in `src/cmds.rs`. -/
def DEFAULT_MARK : String := "__default__"

/-- `NO_MATCHING_WINDOW` in `src/cmds.rs`. -/
def NO_MATCHING_WINDOW : String := "No matching window."

instance : DecidableEq (Except String String) := fun a b =>
  match a, b with
  | Except.ok x, Except.ok y =>
    if h : x = y then isTrue (by rw [h]) else isFalse (by intro hc; cases hc; exact h rfl)
  | Except.error x, Except.error y =>
    if h : x = y then isTrue (by rw [h]) else isFalse (by intro hc; cases hc; exact h rfl)
  | Except.ok _, Except.error _ => isFalse (by intro hc; cases hc)
  | Except.error _, Except.ok _ => isFalse (by intro hc; cases hc)

/-- Result, updated state, and the compositor actions a command issued. -/
structure CmdOut where
  result : Except String String
  state : State
  trace : List NAction
deriving DecidableEq

/-- The `Debug` rendering of an `Option` the messages of `src/cmds.rs` embed. -/
def optStrDebug : Option String → String
  | none => "None"
  | some s => "Some(\"" ++ s ++ "\")"

/-- The `Debug` rendering of an optional id. -/
def optNatDebug : Option Nat → String
  | none => "None"
  | some n => "Some(" ++ toString n ++ ")"

/-- A rendering of the `{focused_win:?}` debug output used in result strings. -/
def Window.debugFmt (w : Window) : String :=
  "Window \x7b id: " ++ toString w.id ++ ", app_id: " ++ optStrDebug w.app_id
    ++ ", title: " ++ optStrDebug w.title
    ++ ", workspace_id: " ++ optNatDebug w.workspace_id
    ++ ", is_focused: " ++ toString w.is_focused
    ++ ", is_floating: " ++ toString w.is_floating ++ " \x7d"

/-- `window_matches` from `src/cmds.rs`: a present filter against a window
lacking that property never matches; otherwise the regex must match.  (The
`unwrap` of the window property is only reached when it is present, exactly
as the short-circuiting Rust condition guarantees.) -/
def window_matches (rmatch : String → String → Bool) (w : Window) (match_opts : MatchOptions) :
    Bool :=
  if (w.app_id.isNone && match_opts.app_id.isSome)
      || (match match_opts.app_id, w.app_id with
          | some rx, some a => !rmatch rx a
          | _, _ => false) then
    false
  else if (w.title.isNone && match_opts.title.isSome)
      || (match match_opts.title, w.title with
          | some rx, some t => !rmatch rx t
          | _, _ => false) then
    false
  else true

/-- `focus_window_by_id` from `src/cmds.rs`: issue a `FocusWindow` action and
translate the reply. -/
def focus_window_by_id (env : Env) (id : Nat) : Except String String × List NAction :=
  (match env.act (NAction.FocusWindow id) with
   | Except.ok _ => Except.ok ("Focused window with id " ++ toString id)
   | Except.error e => Except.error e,
   [NAction.FocusWindow id])

/-- The comparator the `focus` function of `src/cmds.rs` passes to `sort_by`:
a focused window sorts last, visited ids sort after unvisited ids, ties break
by ascending numeric id. -/
def focusCmp (mem : List Nat) (a b : Window) : Ordering :=
  if a.is_focused then Ordering.gt
  else if b.is_focused then Ordering.lt
  else
    let a_visited := mem.contains a.id
    let b_visited := mem.contains b.id
    if a_visited && !b_visited then Ordering.gt
    else if !a_visited && b_visited then Ordering.lt
    else compare a.id b.id

/-- The not-greater relation of `focusCmp`; a stable sort with `focusCmp`
(Rust's `sort_by`) is `List.insertionSort` with this relation. -/
def focusLe (mem : List Nat) (a b : Window) : Prop :=
  focusCmp mem a b ≠ Ordering.gt

instance (mem : List Nat) : DecidableRel (focusLe mem) := fun a b =>
  inferInstanceAs (Decidable (focusCmp mem a b ≠ Ordering.gt))

/-- The matching candidates of `focus`: `wins.retain(|w| window_matches(w, match_opts))`. -/
def focusCands (rmatch : String → String → Bool) (match_opts : MatchOptions)
    (wins : List Window) : List Window :=
  wins.filter (fun w => window_matches rmatch w match_opts)

/-- The effective cycle memory of `focus`: cleared when every candidate has
already been visited. -/
def effMem (mem : List Nat) (cands : List Window) : List Nat :=
  if cands.all (fun w => mem.contains w.id) then [] else mem

/-- Recording the selected id in the cycle memory unless already present
(`if !mem.contains(win.id) { mem.push(win.id) }`). -/
def recordSel (mem : List Nat) (i : Nat) : List Nat :=
  if mem.contains i then mem else mem ++ [i]

/-- Final step of `focus` from `src/cmds.rs`: with no candidate, fail with
`NO_MATCHING_WINDOW` (the cycle memory was cleared by `effMem`); with a first
candidate, record it in the cycle memory unless present and issue the focus
action. -/
def focusAfter (env : Env) (st : State) (mem1 : List Nat) (sel : Option Window) : CmdOut :=
  match sel with
  | none =>
    ⟨Except.error NO_MATCHING_WINDOW, { st with already_focused_win_ids := mem1 }, []⟩
  | some win =>
    ⟨(focus_window_by_id env win.id).1,
     { st with already_focused_win_ids := recordSel mem1 win.id },
     (focus_window_by_id env win.id).2⟩

/-- The selection step of `focus`: stable sort with `focusCmp` and first
element. -/
def focusSel (mem1 : List Nat) (cands : List Window) : Option Window :=
  (List.insertionSort (focusLe mem1) cands).head?

/-- Composition of the steps of `focus` after the window list query. -/
def focusOnWins (env : Env) (match_opts : MatchOptions) (st : State) (wins0 : List Window) :
    CmdOut :=
  focusAfter env st (effMem st.already_focused_win_ids (focusCands env.rmatch match_opts wins0))
    (focusSel (effMem st.already_focused_win_ids (focusCands env.rmatch match_opts wins0))
      (focusCands env.rmatch match_opts wins0))

/-- `focus` from `src/cmds.rs`. -/
def focus (env : Env) (match_opts : MatchOptions) (st : State) : CmdOut :=
  match env.windowsResp with
  | Except.error e => ⟨Except.error e, st, []⟩
  | Except.ok wins0 => focusOnWins env match_opts st wins0

/-- `focus_or_spawn` from `src/cmds.rs`: on the distinguished
`NO_MATCHING_WINDOW` failure, spawn the command instead. -/
def focus_or_spawn (env : Env) (match_opts : MatchOptions) (command : List String)
    (st : State) : CmdOut :=
  let out := focus env match_opts st
  match out.result with
  | Except.error e =>
    if e = NO_MATCHING_WINDOW then
      match env.act (NAction.Spawn command) with
      | Except.ok _ => ⟨Except.ok "Spawned successfully", out.state, out.trace ++ [NAction.Spawn command]⟩
      | Except.error e2 => ⟨Except.error e2, out.state, out.trace ++ [NAction.Spawn command]⟩
    else out
  | Except.ok _ => out

/-- `get_focused_workspace` from `src/cmds.rs` (queries the compositor, not
the state store). -/
def get_focused_workspace_q (env : Env) : Except String Workspace :=
  match env.workspacesResp with
  | Except.error e => Except.error e
  | Except.ok workspaces =>
    match workspaces.find? (fun ws => ws.is_focused) with
    | some ws => Except.ok ws
    | none => Except.error "No focused workspace"

/-- `move_window_to_workspace` from `src/cmds.rs`. -/
def move_window_to_workspace (env : Env) (window_id : Nat) (workspace_id : Nat) (focus : Bool) :
    Except String String × List NAction :=
  (match env.act (NAction.MoveWindowToWorkspace window_id workspace_id focus) with
   | Except.ok _ => Except.ok "Moved successfully"
   | Except.error e => Except.error e,
   [NAction.MoveWindowToWorkspace window_id workspace_id focus])

/-- The retain predicate of `move_to_current_workspace`: windows not already
on the focused workspace (`is_none_or`) that match the query. -/
def m2cwKeep (rmatch : String → String → Bool) (match_opts : MatchOptions) (focused_ws_id : Nat)
    (w : Window) : Bool :=
  (match w.workspace_id with
   | none => true
   | some ws_id => ws_id != focused_ws_id)
  && window_matches rmatch w match_opts

/-- `move_to_current_workspace` from `src/cmds.rs`: takes the **first**
retained window of the list returned by the compositor, issues the move, and
optionally a focus action whose error propagates in front of the move result. -/
def move_to_current_workspace (env : Env) (match_opts : MatchOptions) (focus : Bool)
    (st : State) : CmdOut :=
  match get_focused_workspace_q env with
  | Except.error e => ⟨Except.error e, st, []⟩
  | Except.ok focused_ws =>
    match env.windowsResp with
    | Except.error e => ⟨Except.error e, st, []⟩
    | Except.ok wins0 =>
      match (wins0.filter (m2cwKeep env.rmatch match_opts focused_ws.id)).head? with
      | none => ⟨Except.error NO_MATCHING_WINDOW, st, []⟩
      | some win =>
        let mr := move_window_to_workspace env win.id focused_ws.id focus
        if focus then
          match (focus_window_by_id env win.id).1 with
          | Except.error e => ⟨Except.error e, st, mr.2 ++ (focus_window_by_id env win.id).2⟩
          | Except.ok _ => ⟨mr.1, st, mr.2 ++ (focus_window_by_id env win.id).2⟩
        else ⟨mr.1, st, mr.2⟩

/-- `move_to_current_workspace_or_spawn` from `src/cmds.rs`. -/
def move_to_current_workspace_or_spawn (env : Env) (match_opts : MatchOptions) (focus : Bool)
    (command : List String) (st : State) : CmdOut :=
  let out := move_to_current_workspace env match_opts focus st
  match out.result with
  | Except.error e =>
    if e = NO_MATCHING_WINDOW then
      match env.act (NAction.Spawn command) with
      | Except.ok _ => ⟨Except.ok "Spawned successfully", out.state, out.trace ++ [NAction.Spawn command]⟩
      | Except.error e2 => ⟨Except.error e2, out.state, out.trace ++ [NAction.Spawn command]⟩
    else out
  | Except.ok _ => out

/-- `toggle_follow_mode` from `src/cmds.rs`: order-preserving removal of the
first occurrence (`position` + `remove`) or append. -/
def toggle_follow_mode (env : Env) (st : State) : CmdOut :=
  match env.focusedWindowResp with
  | Except.error e => ⟨Except.error e, st, []⟩
  | Except.ok focused_win =>
    if st.follow_mode_win_ids.contains focused_win.id then
      ⟨Except.ok ("Disabled follow mode for window " ++ focused_win.debugFmt),
       { st with follow_mode_win_ids := st.follow_mode_win_ids.erase focused_win.id }, []⟩
    else
      ⟨Except.ok ("Enabled follow mode for window " ++ focused_win.debugFmt),
       { st with follow_mode_win_ids := st.follow_mode_win_ids ++ [focused_win.id] }, []⟩

/-- The `entry(mark).or_default()` step of `toggle_mark`: materialize an empty
id list for an absent mark. -/
def entryOrDefault (marks : List (String × List Nat)) (mark : String) :
    List (String × List Nat) :=
  if marks.any (fun p => p.1 == mark) then marks else marks ++ [(mark, [])]

/-- Update the id list stored under a mark. -/
def setMark (marks : List (String × List Nat)) (mark : String) (ids : List Nat) :
    List (String × List Nat) :=
  marks.map (fun p => if p.1 == mark then (p.1, ids) else p)

/-- `toggle_mark` from `src/cmds.rs`: `entry().or_default()`, then an
order-preserving removal of the focused id if present, else an append. -/
def toggle_mark (env : Env) (mark : String) (st : State) : CmdOut :=
  match env.focusedWindowResp with
  | Except.error e => ⟨Except.error e, st, []⟩
  | Except.ok focused_win =>
    let marks0 := entryOrDefault st.mark_to_win_ids mark
    let ids := (((marks0.find? (fun p => p.1 == mark)).map Prod.snd).getD [])
    if ids.contains focused_win.id then
      ⟨Except.ok ("Unset mark for window " ++ focused_win.debugFmt),
       { st with mark_to_win_ids := setMark marks0 mark (ids.erase focused_win.id) }, []⟩
    else
      ⟨Except.ok ("Set mark for window " ++ focused_win.debugFmt),
       { st with mark_to_win_ids := setMark marks0 mark (ids ++ [focused_win.id]) }, []⟩

/-- `focus_marked` from `src/cmds.rs`: count the currently focused window as
visited, start a new cycle when every marked window was visited, then focus
the first unvisited marked window. -/
def focus_marked (env : Env) (mark : String) (st : State) : CmdOut :=
  match (st.mark_to_win_ids.find? (fun p => p.1 == mark)).map Prod.snd with
  | none => ⟨Except.error "No such mark.", st, []⟩
  | some marked_windows =>
    let mem0 :=
      match env.focusedWindowResp with
      | Except.ok current_win =>
        if st.already_focused_win_ids.contains current_win.id then st.already_focused_win_ids
        else st.already_focused_win_ids ++ [current_win.id]
      | Except.error _ => st.already_focused_win_ids
    let mem1 := if marked_windows.all (fun w => mem0.contains w) then [] else mem0
    match marked_windows.find? (fun id => !mem1.contains id) with
    | some win_id =>
      ⟨(focus_window_by_id env win_id).1,
       { st with already_focused_win_ids := mem1 ++ [win_id] },
       (focus_window_by_id env win_id).2⟩
    | none => ⟨Except.error "No marked window.", { st with already_focused_win_ids := mem1 }, []⟩

/-- One output line of `list_marked`. -/
def windowLine (w : Window) : String :=
  "id: " ++ toString w.id ++ ", app-id: " ++ optStrDebug w.app_id
    ++ ", title: " ++ optStrDebug w.title
    ++ ", on workspace: " ++ optNatDebug w.workspace_id ++ "\n"

/-- `list_marked` from `src/cmds.rs`: prune mark ids whose window no longer
exists, store the pruned list back, and render a line per window. -/
def list_marked (env : Env) (mark : String) (st : State) : CmdOut :=
  match st.mark_to_win_ids.find? (fun p => p.1 == mark) with
  | none => ⟨Except.error "No such mark.", st, []⟩
  | some p0 =>
    match env.windowsResp with
    | Except.error e => ⟨Except.error e, st, []⟩
    | Except.ok wins =>
      let pruned := p0.2.filter (fun mw => wins.any (fun w => w.id == mw))
      let shown := pruned.filterMap (fun id => wins.find? (fun w => w.id == id))
      ⟨Except.ok (shown.foldl (fun acc win => acc ++ windowLine win) ""),
       { st with mark_to_win_ids := setMark st.mark_to_win_ids mark pruned }, []⟩

/-- Loop of `list_all_marked`: each mark header followed by its `list_marked`
output, with an error returned as-is. -/
def list_all_marked_go (env : Env) : List String → State → String → Except String String × State
  | [], st, s => (Except.ok s, st)
  | mark :: rest, st, s =>
    let out := list_marked env mark st
    match out.result with
    | Except.ok marks => list_all_marked_go env rest out.state (s ++ "-> " ++ mark ++ ":\n" ++ marks)
    | Except.error e => (Except.error e, out.state)

/-- `list_all_marked` from `src/cmds.rs` (the key snapshot is taken before the
loop). -/
def list_all_marked (env : Env) (st : State) : CmdOut :=
  let r := list_all_marked_go env (st.mark_to_win_ids.map Prod.fst) st ""
  ⟨r.1, r.2, []⟩

/-- The per-command dispatch inside `exec_nirius_cmd` (the big `match &cmd`). -/
def execCore (env : Env) (cmd : NiriusCmd) (st : State) : CmdOut :=
  match cmd with
  | NiriusCmd.Nop => ⟨Except.ok "Nothing done", st, []⟩
  | NiriusCmd.Focus match_opts => focus env match_opts st
  | NiriusCmd.FocusOrSpawn match_opts command => focus_or_spawn env match_opts command st
  | NiriusCmd.MoveToCurrentWorkspace match_opts f => move_to_current_workspace env match_opts f st
  | NiriusCmd.MoveToCurrentWorkspaceOrSpawn match_opts f command =>
    move_to_current_workspace_or_spawn env match_opts f command st
  | NiriusCmd.ToggleFollowMode => toggle_follow_mode env st
  | NiriusCmd.ToggleMark mark => toggle_mark env (mark.getD DEFAULT_MARK) st
  | NiriusCmd.FocusMarked mark => focus_marked env (mark.getD DEFAULT_MARK) st
  | NiriusCmd.ListMarked mark all =>
    if all then list_all_marked env st else list_marked env (mark.getD DEFAULT_MARK) st

/-- Output of the command dispatcher: result, state, the stored last command,
and the issued actions. -/
structure ExecOut where
  result : Except String String
  state : State
  last : Option NiriusCmd
  trace : List NAction
deriving DecidableEq

/-- `exec_nirius_cmd` from `src/cmds.rs`: decide up front whether the incoming
command differs from the stored last command, execute the command, **then**
clear the cycle memory if it differed, and finally store the command as the
new last command — unconditionally, whether it succeeded or failed. -/
def exec_nirius_cmd (env : Env) (last_command : Option NiriusCmd) (cmd : NiriusCmd)
    (st : State) : ExecOut :=
  let clear_focused_win_ids :=
    match last_command with
    | some lc => lc != cmd
    | none => false
  let out := execCore env cmd st
  { result := out.result
    state :=
      if clear_focused_win_ids then { out.state with already_focused_win_ids := [] }
      else out.state
    last := some cmd
    trace := out.trace }

/-- The compositor events `handle_event` in `src/daemon.rs` distinguishes. -/
inductive NEvent where
  | WorkspaceActivated (id : Nat) (focused : Bool)
  | WindowClosed (id : Nat)
  | Other
deriving DecidableEq

/-- Loop body of `move_follow_mode_windows` from `src/daemon.rs`: issue one
move per follow-mode id; the `?` on `query_niri` propagates the first error,
abandoning the remaining ids. -/
def move_follow_mode_windows_go (env : Env) (workspace_id : Nat) :
    List Nat → Nat → Except String String × List NAction
  | [], n => (Except.ok ("Moved " ++ toString n ++ " follow-mode windows."), [])
  | id :: rest, n =>
    match env.act (NAction.MoveWindowToWorkspace id workspace_id true) with
    | Except.error e => (Except.error e, [NAction.MoveWindowToWorkspace id workspace_id true])
    | Except.ok _ =>
      let r := move_follow_mode_windows_go env workspace_id rest (n + 1)
      (r.1, NAction.MoveWindowToWorkspace id workspace_id true :: r.2)

/-- `move_follow_mode_windows` from `src/daemon.rs`. -/
def move_follow_mode_windows (env : Env) (st : State) (workspace_id : Nat) : CmdOut :=
  let r := move_follow_mode_windows_go env workspace_id st.follow_mode_win_ids 0
  ⟨r.1, st, r.2⟩

/-- `handle_event` from `src/daemon.rs`: a focused `WorkspaceActivated` event
only moves the follow-mode windows (no state change); `WindowClosed` removes
the window from the state; everything else is a no-op. -/
def handle_event (env : Env) (st : State) (event : NEvent) : CmdOut :=
  match event with
  | NEvent.WorkspaceActivated id focused =>
    if focused then move_follow_mode_windows env st id
    else ⟨Except.ok "Nothing to do.", st, []⟩
  | NEvent.WindowClosed id =>
    let r := st.remove_window id
    ⟨Except.ok "", r.2, []⟩
  | NEvent.Other => ⟨Except.ok "Nothing to do.", st, []⟩

/-- Modelled from the spec: the relocation actions of `ScratchpadToggle`
(§4.2).  The `ScratchpadToggle` command itself is absent from
`src/src/cmds.rs` (only the `scratchpad_win_ids` set and the bottom-workspace
query exist in `src/src/state.rs`), so this follows the spec's words: for each
scratchpad-set id in insertion order, toggle the window to floating if it is
not already floating, then move it to the bottom workspace of the currently
focused output.  A scratchpad id without a matching window (excluded by the
spec's invariant) is just moved. -/
def scratchpad_relocation_actions (st : State) (bottom_ws_id : Nat) (ids : List Nat) :
    List NAction :=
  ids.flatMap (fun i =>
    match st.all_windows.find? (fun w => w.id == i) with
    | some w =>
      (if w.is_floating then [] else [NAction.ToggleWindowFloating i])
        ++ [NAction.MoveWindowToWorkspace i bottom_ws_id false]
    | none => [NAction.MoveWindowToWorkspace i bottom_ws_id false])

/-- Modelled from the spec: the `ScratchpadToggle` command (§4.2), absent from
`src/src/cmds.rs`.  It requires a focused window; if that window is already in
the scratchpad set it is removed from the set (no compositor action);
otherwise it is added and every scratchpad-set window is relocated in
insertion order via `scratchpad_relocation_actions`, targeting the bottom
workspace (`find_bottom_workspace`, i.e.
`get_bottom_workspace_id_and_idx_of_output` of `src/src/state.rs`) of the
currently focused output. -/
def scratchpad_toggle (env : Env) (st : State) : CmdOut :=
  match env.focusedWindowResp with
  | Except.error e => ⟨Except.error e, st, []⟩
  | Except.ok focused_win =>
    if st.scratchpad_win_ids.contains focused_win.id then
      ⟨Except.ok ("Removed window " ++ toString focused_win.id ++ " from the scratchpad."),
       { st with scratchpad_win_ids := st.scratchpad_win_ids.erase focused_win.id }, []⟩
    else
      let st' := { st with scratchpad_win_ids := st.scratchpad_win_ids ++ [focused_win.id] }
      match st'.get_focused_workspace with
      | none => ⟨Except.error "No focused workspace", st', []⟩
      | some ws =>
        match ws.output with
        | none => ⟨Except.error "Workspace without output.", st', []⟩
        | some out =>
          match st'.get_bottom_workspace_id_and_idx_of_output out with
          | none => ⟨Except.error "No bottom but a focused workspace.", st', []⟩
          | some bid_idx =>
            ⟨Except.ok ("Moved window " ++ toString focused_win.id ++ " to the scratchpad."),
             st',
             scratchpad_relocation_actions st' bid_idx.1 st'.scratchpad_win_ids⟩

/-- A window with only id and focus flag set. -/
def mkWin (i : Nat) (foc : Bool) : Window :=
  { id := i, app_id := none, title := none, workspace_id := none
    is_focused := foc, is_floating := false }

/-- A window with id and owning workspace. -/
def mkWinWs (i : Nat) (ws : Nat) : Window :=
  { id := i, app_id := none, title := none, workspace_id := some ws
    is_focused := false, is_floating := false }

/-- Match options with no filters (they match every window). -/
def moNone : MatchOptions := { app_id := none, title := none }

/-- A state in which window 1 exists everywhere, including the cycle memory. -/
def stC1 : State :=
  { all_windows := [mkWin 1 false], all_workspaces := []
    follow_mode_win_ids := [1], scratchpad_win_ids := [1]
    mark_to_win_ids := [("m", [1])], already_focused_win_ids := [1] }

/-- Environment for the C6 counterexample: two unfocused windows 1 and 2, a
regex engine that matches everything, a compositor accepting every action. -/
def envC6 : Env :=
  { windowsResp := Except.ok [mkWin 1 false, mkWin 2 false]
    workspacesResp := Except.ok []
    focusedWindowResp := Except.error "No focused window"
    rmatch := fun _ _ => true
    act := fun _ => Except.ok () }

/-- State for the C6 counterexample: window 1 already in the cycle memory. -/
def stC6 : State := { State.empty with already_focused_win_ids := [1] }

/-- The focused workspace used by the C7 inputs. -/
def wsF : Workspace := { id := 100, idx := 0, output := some "eDP-1", is_focused := true }

/-- Window list for the C7 counterexample: candidate ids in the order 5,3. -/
def winsC7 : List Window := [mkWinWs 5 1, mkWinWs 3 1]

/-- Environment for the C7 counterexample. -/
def envC7 : Env :=
  { windowsResp := Except.ok winsC7
    workspacesResp := Except.ok [wsF]
    focusedWindowResp := Except.error "No focused window"
    rmatch := fun _ _ => true
    act := fun _ => Except.ok () }

/-- Environment for the C7 witness (no windows at all). -/
def envC7e : Env :=
  { windowsResp := Except.ok []
    workspacesResp := Except.ok [wsF]
    focusedWindowResp := Except.error "No focused window"
    rmatch := fun _ _ => true
    act := fun _ => Except.ok () }

/-- Environment for the C8 inputs: the move of window 10 fails, every other
action succeeds. -/
def envC8 : Env :=
  { windowsResp := Except.error "unused"
    workspacesResp := Except.error "unused"
    focusedWindowResp := Except.error "unused"
    rmatch := fun _ _ => true
    act := fun a =>
      match a with
      | NAction.MoveWindowToWorkspace 10 _ _ => Except.error "move failed"
      | _ => Except.ok () }

/-- State for the C8 inputs: windows 10 and 20 are in follow mode. -/
def stC8 : State := { State.empty with follow_mode_win_ids := [10, 20] }

/-- Environment whose focused window is window 7. -/
def envM : Env :=
  { windowsResp := Except.error "unused"
    workspacesResp := Except.error "unused"
    focusedWindowResp := Except.ok (mkWin 7 true)
    rmatch := fun _ _ => true
    act := fun _ => Except.ok () }

/-- A registry owning mark "m" with id 9 (and not id 7). -/
def stC9 : State := { State.empty with mark_to_win_ids := [("m", [9])] }

/-- A registry owning mark "m" whose list ends in id 7 (the focused id). -/
def stC9b : State := { State.empty with mark_to_win_ids := [("m", [9, 7])] }

/-- The store mutations the Event Synchronizer applies. -/
inductive StoreOp where
  | register (w : Window)
  | remove (id : Nat)
  | focusChanged (opt_id : Option Nat)

/-- Apply one store operation (dropping the result message). -/
def applyOp (st : State) : StoreOp → State
  | StoreOp.register w => (st.register_window w).2
  | StoreOp.remove i => (st.remove_window i).2
  | StoreOp.focusChanged o => (st.window_focus_changed o).2

/-- Apply a sequence of store operations. -/
def applySeq (st : State) : List StoreOp → State
  | [] => st
  | op :: rest => applySeq (applyOp st op) rest

/-- The restriction the amended claim C2 adds: a registered window must either
be already known (same id present) or arrive unfocused. -/
def OpOK (st : State) : StoreOp → Prop
  | StoreOp.register w =>
    w.is_focused = false ∨ st.all_windows.any (fun x => x.id == w.id) = true
  | StoreOp.remove _ => True
  | StoreOp.focusChanged _ => True

/-- Every operation of the sequence is `OpOK` in the state it is applied to. -/
def SafeSeq (st : State) : List StoreOp → Prop
  | [] => True
  | op :: rest => OpOK st op ∧ SafeSeq (applyOp st op) rest

/-- The store invariant: window ids are unique and at most one window is
focused. -/
def StInv (st : State) : Prop :=
  (st.all_windows.map Window.id).Nodup ∧ st.all_windows.countP Window.is_focused ≤ 1

/-- The sort class of a window under the `focusCmp` order: the focused window
sorts last (class 2 or 3), visited windows after unvisited ones (class 1 vs
0). -/
def sortClass (mem : List Nat) (w : Window) : Nat :=
  (if w.is_focused then 2 else 0) + (if mem.contains w.id then 1 else 0)

/-- The total preorder `focusCmp` realizes on windows of which at most one is
focused: ascending `sortClass`, ties broken by ascending id. -/
def keyLe (mem : List Nat) (a b : Window) : Prop :=
  sortClass mem a < sortClass mem b ∨ (sortClass mem a = sortClass mem b ∧ a.id ≤ b.id)

instance (mem : List Nat) : DecidableRel (keyLe mem) := fun a b => by
  unfold keyLe
  infer_instance

/-- Environment with no windows at all, used by the C4 witness. -/
def envC4e : Env :=
  { windowsResp := Except.ok []
    workspacesResp := Except.ok []
    focusedWindowResp := Except.error "No focused window"
    rmatch := fun _ _ => true
    act := fun _ => Except.ok () }

/-- The candidate ids in ascending order — the order in which cycling visits
them when no window is focused. -/
def sortedIds (wins0 : List Window) : List Nat :=
  List.insertionSort (fun a b => a ≤ b) (wins0.map Window.id)

/-- Iterate the `focus` command `n` times, collecting each invocation's issued
actions (threading the state, with an unchanged window list — the fixed
candidate set of the claim). -/
def focusRun (env : Env) (mo : MatchOptions) : Nat → State → List (List NAction) × State
  | 0, st => ([], st)
  | n + 1, st =>
    let out := focus env mo st
    let r := focusRun env mo n out.state
    (out.trace :: r.1, r.2)

/-- Window list for the C5 witness: the scenario windows 1, 2, 3, none
focused. -/
def winsC5 : List Window := [mkWin 1 false, mkWin 2 false, mkWin 3 false]

/-- Environment for the C5 witness. -/
def envC5w : Env :=
  { windowsResp := Except.ok winsC5
    workspacesResp := Except.ok []
    focusedWindowResp := Except.error "No focused window"
    rmatch := fun _ _ => true
    act := fun _ => Except.ok () }

/-- State for the C3 witness: window 4 already floating in the scratchpad
set, window 7 focused, one output with workspaces at indices 0 and 1. -/
def stC3 : State :=
  { all_windows := [{ id := 4, app_id := none, title := none, workspace_id := some 50
                      is_focused := false, is_floating := true }, mkWin 7 true]
    all_workspaces := [{ id := 50, idx := 0, output := some "eDP-1", is_focused := true },
                       { id := 51, idx := 1, output := some "eDP-1", is_focused := false }]
    follow_mode_win_ids := []
    scratchpad_win_ids := [4]
    mark_to_win_ids := []
    already_focused_win_ids := [] }

/-- Environment for the C3 witness. -/
def envC3 : Env :=
  { windowsResp := Except.ok stC3.all_windows
    workspacesResp := Except.ok stC3.all_workspaces
    focusedWindowResp := Except.ok (mkWin 7 true)
    rmatch := fun _ _ => true
    act := fun _ => Except.ok () }


/-! ## Concrete builders used by counterexamples and witnesses -/

/-! ## C1: `remove_window` purging -/

/-- Claim C1, amended: `remove_window(id)` purges the id from the window list,
the follow-mode set, the scratchpad set and every mark's id list, but it does
**not** purge the cycle memory (`already_focused_win_ids`), which is returned
unchanged. -/
theorem C1_theorem (st : State) (i : Nat) :
    (∀ w ∈ (st.remove_window i).2.all_windows, w.id ≠ i) ∧
    i ∉ (st.remove_window i).2.follow_mode_win_ids ∧
    i ∉ (st.remove_window i).2.scratchpad_win_ids ∧
    (∀ p ∈ (st.remove_window i).2.mark_to_win_ids, i ∉ p.2) ∧
    (st.remove_window i).2.already_focused_win_ids = st.already_focused_win_ids := by
  unfold State.remove_window
  refine ⟨?_, ?_, ?_, ?_, rfl⟩
  · intro w hw
    have hp := List.of_mem_filter hw
    simpa using hp
  · intro h
    have hp := List.of_mem_filter h
    simp at hp
  · intro h
    have hp := List.of_mem_filter h
    simp at hp
  · intro p hp
    simp only [List.mem_map] at hp
    obtain ⟨q, _, rfl⟩ := hp
    intro h
    have hq := List.of_mem_filter h
    simp at hq

/-- Claim C1 as stated is false: window id 1 is present in the state, is
removed, yet the cycle memory (the already-visited id list) still contains 1
afterwards. -/
theorem C1_counterexample :
    1 ∈ stC1.all_windows.map Window.id ∧
    1 ∈ (stC1.remove_window 1).2.already_focused_win_ids := by decide

/-! ## C10: the stored last command -/

/-- Claim C10: after every invocation of the command dispatcher the stored
last command equals the command just executed — unconditionally, so a failed
command still counts as the "immediately prior command" for the next
cycle-memory-reset comparison. -/
theorem C10_theorem (env : Env) (last_command : Option NiriusCmd) (cmd : NiriusCmd)
    (st : State) :
    (exec_nirius_cmd env last_command cmd st).last = some cmd := rfl

/-! ## C6: when and how the cycle memory is cleared -/

/-- Claim C6 as stated is false: a `Focus` command that differs from the prior
command (`Nop`) does **not** execute against empty cycle memory.  With memory
`[1]` it selects window 2 (1 counts as visited), whereas executing the same
command against empty memory selects window 1. -/
theorem C6_counterexample :
    some NiriusCmd.Nop ≠ some (NiriusCmd.Focus moNone) ∧
    (exec_nirius_cmd envC6 (some NiriusCmd.Nop) (NiriusCmd.Focus moNone) stC6).trace
      = [NAction.FocusWindow 2] ∧
    (execCore envC6 (NiriusCmd.Focus moNone)
        { stC6 with already_focused_win_ids := [] }).trace
      = [NAction.FocusWindow 1] := by decide

/-- Claim C6, amended: the dispatcher decides up front whether the incoming
command differs (by full structural equality) from the stored prior command,
but it executes the command **first** and clears the cycle memory **after**,
so the differing command itself still runs against the predecessor's memory
(and any id it recorded is wiped immediately); a command structurally equal to
its predecessor keeps the memory produced by its own execution. -/
theorem C6_theorem (env : Env) (last_command : Option NiriusCmd) (cmd : NiriusCmd)
    (st : State) :
    (exec_nirius_cmd env last_command cmd st).result = (execCore env cmd st).result ∧
    (exec_nirius_cmd env last_command cmd st).trace = (execCore env cmd st).trace ∧
    (exec_nirius_cmd env last_command cmd st).state =
      (if last_command.isSome = true ∧ last_command ≠ some cmd
       then { (execCore env cmd st).state with already_focused_win_ids := [] }
       else (execCore env cmd st).state) := by
  refine ⟨rfl, rfl, ?_⟩
  unfold exec_nirius_cmd
  cases last_command with
  | none => simp
  | some lc =>
    by_cases h : lc = cmd
    · subst h; simp
    · simp [h, bne_iff_ne, h]

/-! ## C7: `move_to_current_workspace` selection -/

/-- Claim C7, amended: among the windows that match the query and are not
already on the focused workspace (`m2cwKeep`), `move_to_current_workspace`
picks the **first window in the order of the compositor's window list** — not
the one with the smallest id — as a single-shot choice that leaves the state
(in particular the cycle memory) untouched, and fails with exactly
`NO_MATCHING_WINDOW` when no window qualifies. -/
theorem C7_theorem (env : Env) (match_opts : MatchOptions) (f : Bool) (st : State)
    (focused_ws : Workspace) (wins0 : List Window)
    (hws : get_focused_workspace_q env = Except.ok focused_ws)
    (hw : env.windowsResp = Except.ok wins0) :
    ((wins0.filter (m2cwKeep env.rmatch match_opts focused_ws.id)) = [] →
      move_to_current_workspace env match_opts f st
        = ⟨Except.error NO_MATCHING_WINDOW, st, []⟩) ∧
    (∀ w rest, (wins0.filter (m2cwKeep env.rmatch match_opts focused_ws.id)) = w :: rest →
      (move_to_current_workspace env match_opts f st).trace
        = NAction.MoveWindowToWorkspace w.id focused_ws.id f
            :: (if f then [NAction.FocusWindow w.id] else []) ∧
      (move_to_current_workspace env match_opts f st).state = st) := by
  constructor
  · intro hnil
    unfold move_to_current_workspace
    rw [hws, hw]
    dsimp only
    rw [hnil]
    rfl
  · intro w rest hcons
    unfold move_to_current_workspace
    rw [hws, hw]
    dsimp only
    rw [hcons]
    simp only [List.head?_cons]
    cases f with
    | false => exact ⟨rfl, rfl⟩
    | true =>
      cases hact : env.act (NAction.FocusWindow w.id) with
      | ok v =>
        simp [move_window_to_workspace, focus_window_by_id, hact]
      | error e =>
        simp [move_window_to_workspace, focus_window_by_id, hact]

/-- Claim C7 as stated is false: both windows 5 and 3 match and are off the
focused workspace, yet the command moves window 5 (the first of the list),
not window 3 (the smallest id). -/
theorem C7_counterexample :
    (winsC7.filter (m2cwKeep envC7.rmatch moNone wsF.id)).map Window.id = [5, 3] ∧
    (move_to_current_workspace envC7 moNone false State.empty).trace
      = [NAction.MoveWindowToWorkspace 5 100 false] := by decide

/-- Witness for `C7_theorem` at concrete inputs, covering both the empty and
the non-empty candidate case. -/
theorem C7_witness :
    move_to_current_workspace envC7e moNone false State.empty
      = ⟨Except.error NO_MATCHING_WINDOW, State.empty, []⟩ ∧
    (move_to_current_workspace envC7 moNone false State.empty).trace
      = NAction.MoveWindowToWorkspace 5 100 false :: [] := by
  constructor
  · exact (C7_theorem envC7e moNone false State.empty wsF [] rfl rfl).1 rfl
  · have h := (C7_theorem envC7 moNone false State.empty wsF winsC7 rfl rfl).2
      (mkWinWs 5 1) [mkWinWs 3 1] (by decide)
    simpa using h.1

/-! ## C8: follow-mode moves on workspace activation -/

/-- Helper for C8: the loop of `move_follow_mode_windows` stops at the first
id whose move action errors; the ids before it and the failing id itself are
issued, the rest are not. -/
theorem mfmw_go_of_error (env : Env) (wsId : Nat) (post : List Nat) (bad : Nat) (e : String)
    (hbad : env.act (NAction.MoveWindowToWorkspace bad wsId true) = Except.error e) :
    ∀ (pre : List Nat) (n : Nat),
      (∀ i ∈ pre, env.act (NAction.MoveWindowToWorkspace i wsId true) = Except.ok ()) →
      move_follow_mode_windows_go env wsId (pre ++ bad :: post) n
        = (Except.error e, (pre ++ [bad]).map (fun i => NAction.MoveWindowToWorkspace i wsId true))
  | [], n, _ => by
    simp only [List.nil_append, move_follow_mode_windows_go, hbad, List.map_cons, List.map_nil]
  | i :: pre, n, hpre => by
    have hi : env.act (NAction.MoveWindowToWorkspace i wsId true) = Except.ok () :=
      hpre i (List.mem_cons_self i pre)
    have ih := mfmw_go_of_error env wsId post bad e hbad pre (n + 1)
      (fun j hj => hpre j (List.mem_cons_of_mem i hj))
    simp only [List.cons_append, move_follow_mode_windows_go, hi, List.append_eq, ih,
      List.map_cons]

/-- Claim C8, amended: on a focused `WorkspaceActivated` event the handler
does **not** apply any workspace focus change to the state (the state is
returned untouched), and it issues the follow-mode moves in order only until
the first failing move: the error aborts the moves for the remaining
follow-mode windows and becomes the handler's result (the event loop merely
logs it). -/
theorem C8_theorem (env : Env) (st : State) (wsId : Nat) (pre post : List Nat) (bad : Nat)
    (e : String)
    (hfollow : st.follow_mode_win_ids = pre ++ bad :: post)
    (hpre : ∀ i ∈ pre, env.act (NAction.MoveWindowToWorkspace i wsId true) = Except.ok ())
    (hbad : env.act (NAction.MoveWindowToWorkspace bad wsId true) = Except.error e) :
    (handle_event env st (NEvent.WorkspaceActivated wsId true)).trace
      = (pre ++ [bad]).map (fun i => NAction.MoveWindowToWorkspace i wsId true) ∧
    (handle_event env st (NEvent.WorkspaceActivated wsId true)).result = Except.error e ∧
    (handle_event env st (NEvent.WorkspaceActivated wsId true)).state = st := by
  have hgo := mfmw_go_of_error env wsId post bad e hbad pre 0 hpre
  unfold handle_event move_follow_mode_windows
  rw [hfollow]
  simp [hgo]

/-- Claim C8 as stated is false: when the move of follow-mode window 10
errors, the move for the remaining follow-mode window 20 is never issued, and
no workspace focus change is applied to the state. -/
theorem C8_counterexample :
    (handle_event envC8 stC8 (NEvent.WorkspaceActivated 7 true)).trace
      = [NAction.MoveWindowToWorkspace 10 7 true] ∧
    NAction.MoveWindowToWorkspace 20 7 true
      ∉ (handle_event envC8 stC8 (NEvent.WorkspaceActivated 7 true)).trace ∧
    (handle_event envC8 stC8 (NEvent.WorkspaceActivated 7 true)).state = stC8 := by decide

/-- Witness for `C8_theorem` at the concrete C8 inputs. -/
theorem C8_witness :
    (handle_event envC8 stC8 (NEvent.WorkspaceActivated 9 true)).trace
      = [NAction.MoveWindowToWorkspace 10 9 true] ∧
    (handle_event envC8 stC8 (NEvent.WorkspaceActivated 9 true)).result
      = Except.error "move failed" ∧
    (handle_event envC8 stC8 (NEvent.WorkspaceActivated 9 true)).state = stC8 := by
  have h := C8_theorem envC8 stC8 9 [] [20] 10 "move failed" rfl (by intro i hi; cases hi) rfl
  simpa using h

/-! ## C9: double `ToggleMark` on the mark registry -/

/-- `setMark` leaves a registry without the mark untouched. -/
theorem setMark_of_not_mem (m : List (String × List Nat)) (mark : String) (ids : List Nat)
    (h : mark ∉ m.map Prod.fst) : setMark m mark ids = m := by
  induction m with
  | nil => rfl
  | cons q rest ih =>
    simp only [List.map_cons, List.mem_cons, not_or] at h
    have hq : (q.1 == mark) = false := by
      rw [beq_eq_false_iff_ne]
      exact fun e => h.1 e.symm
    unfold setMark at ih ⊢
    simp only [hq, Bool.false_eq_true, if_false, List.map_cons, ih h.2]

/-- `find?` after `setMark` returns the first matching key with the new ids. -/
theorem find?_setMark (m : List (String × List Nat)) (mark : String) (ids : List Nat)
    (p0 : String × List Nat) (h : m.find? (fun p => p.1 == mark) = some p0) :
    (setMark m mark ids).find? (fun p => p.1 == mark) = some (p0.1, ids) := by
  induction m with
  | nil => cases h
  | cons q rest ih =>
    unfold setMark
    cases hq : (q.1 == mark) with
    | true =>
      rw [List.find?_cons_of_pos rest hq] at h
      cases h
      simp only [List.map_cons, hq, if_true]
      exact List.find?_cons_of_pos _ hq
    | false =>
      rw [List.find?_cons_of_neg rest (by simp [hq])] at h
      simp only [List.map_cons, hq, Bool.false_eq_true, if_false]
      rw [List.find?_cons_of_neg _ (by simp [hq])]
      exact ih h

/-- Two consecutive `setMark`s collapse to the last one. -/
theorem setMark_setMark (m : List (String × List Nat)) (mark : String) (ids1 ids2 : List Nat) :
    setMark (setMark m mark ids1) mark ids2 = setMark m mark ids2 := by
  unfold setMark
  rw [List.map_map]
  congr 1
  funext p
  by_cases h : p.1 = mark <;> simp [h]

/-- `setMark` preserves the key list. -/
theorem setMark_keys (m : List (String × List Nat)) (mark : String) (ids : List Nat) :
    (setMark m mark ids).map Prod.fst = m.map Prod.fst := by
  unfold setMark
  rw [List.map_map]
  congr 1
  funext p
  by_cases h : p.1 = mark <;> simp [h]

/-- With unique keys, rewriting the found entry with its own ids is the
identity. -/
theorem setMark_find?_self (m : List (String × List Nat)) (mark : String)
    (p0 : String × List Nat) (hnd : (m.map Prod.fst).Nodup)
    (h : m.find? (fun p => p.1 == mark) = some p0) :
    setMark m mark p0.2 = m := by
  induction m with
  | nil => cases h
  | cons q rest ih =>
    simp only [List.map_cons, List.nodup_cons] at hnd
    unfold setMark
    cases hq : (q.1 == mark) with
    | true =>
      rw [List.find?_cons_of_pos rest hq] at h
      obtain rfl : q = p0 := by injection h
      have hmark2 : mark ∉ rest.map Prod.fst := by
        have he := eq_of_beq hq
        rw [← he]
        exact hnd.1
      have h2 := setMark_of_not_mem rest mark q.2 hmark2
      simp only [setMark, List.map_cons] at h2 ⊢
      rw [if_pos hq, h2]
    | false =>
      rw [List.find?_cons_of_neg rest (by simp [hq])] at h
      have h2 := ih hnd.2 h
      simp only [setMark, List.map_cons] at h2 ⊢
      rw [if_neg (by simp [hq]), h2]

/-- Claim C9, amended: executing `ToggleMark` twice with the same mark and the
same focused window restores the mark registry exactly whenever the mark
already has an entry in the registry (keys unique) and the focused window's id
is either absent from that entry's id list or is its last element (removing
the id then re-appending it reproduces the list, and vice versa).  The round
trip is not an unconditional no-op on the registry: toggling twice on an
absent mark leaves behind a materialized empty entry (`entry().or_default()` —
see the counterexample), and an id removed from the middle of a list comes
back at its end. -/
theorem C9_theorem (env : Env) (mark : String) (st : State) (fw : Window)
    (hfw : env.focusedWindowResp = Except.ok fw)
    (hkeys : (st.mark_to_win_ids.map Prod.fst).Nodup)
    (hmark : st.mark_to_win_ids.any (fun p => p.1 == mark) = true)
    (hnotin : ∀ p ∈ st.mark_to_win_ids, p.1 = mark →
      fw.id ∉ p.2 ∨ ∃ pre, p.2 = pre ++ [fw.id] ∧ fw.id ∉ pre) :
    (toggle_mark env mark (toggle_mark env mark st).state).state.mark_to_win_ids
      = st.mark_to_win_ids := by
  have hex : ∃ p, st.mark_to_win_ids.find? (fun p => p.1 == mark) = some p := by
    cases hf : st.mark_to_win_ids.find? (fun p => p.1 == mark) with
    | some p => exact ⟨p, rfl⟩
    | none =>
      rw [List.find?_eq_none] at hf
      rw [List.any_eq_true] at hmark
      obtain ⟨x, hx, hpx⟩ := hmark
      exact absurd hpx (by simpa using hf x hx)
  obtain ⟨p0, hfind⟩ := hex
  have hp0mem : p0 ∈ st.mark_to_win_ids := List.mem_of_find?_eq_some hfind
  have hp0key : p0.1 = mark := by
    have := List.find?_some hfind
    simpa using this
  rcases hnotin p0 hp0mem hp0key with hp0ids | ⟨pre, hpre_eq, hpre_not⟩
  · -- the focused id is absent: first toggle appends it, second removes it
    have h1state : (toggle_mark env mark st).state =
        { st with mark_to_win_ids := setMark st.mark_to_win_ids mark (p0.2 ++ [fw.id]) } := by
      unfold toggle_mark entryOrDefault
      rw [hfw]
      simp [hmark, hfind, hp0ids]
    rw [h1state]
    have hany1 : (setMark st.mark_to_win_ids mark (p0.2 ++ [fw.id])).any
        (fun p => p.1 == mark) = true := by
      rw [List.any_eq_true]
      refine ⟨(p0.1, p0.2 ++ [fw.id]), ?_, by simpa using hp0key⟩
      exact List.mem_of_find?_eq_some (find?_setMark _ _ _ _ hfind)
    have hfind1 : (setMark st.mark_to_win_ids mark (p0.2 ++ [fw.id])).find?
        (fun p => p.1 == mark) = some (p0.1, p0.2 ++ [fw.id]) :=
      find?_setMark _ _ _ _ hfind
    have hcont1 : (p0.2 ++ [fw.id]).contains fw.id = true := by simp
    have herase : (p0.2 ++ [fw.id]).erase fw.id = p0.2 := by
      rw [List.erase_append_right [fw.id] hp0ids, List.erase_cons_head]
      simp
    unfold toggle_mark entryOrDefault
    rw [hfw]
    simp [hany1, hfind1, hcont1, herase]
    rw [setMark_setMark, setMark_find?_self st.mark_to_win_ids mark p0 hkeys hfind]
  · -- the focused id is the last element: first toggle removes it from the
    -- end, second re-appends it there
    have hmemid : fw.id ∈ p0.2 := by
      rw [hpre_eq]
      simp
    have h1state : (toggle_mark env mark st).state =
        { st with mark_to_win_ids := setMark st.mark_to_win_ids mark (p0.2.erase fw.id) } := by
      unfold toggle_mark entryOrDefault
      rw [hfw]
      simp [hmark, hfind, hmemid]
    have herase : p0.2.erase fw.id = pre := by
      rw [hpre_eq, List.erase_append_right [fw.id] hpre_not, List.erase_cons_head]
      simp
    rw [h1state, herase]
    have hany1 : (setMark st.mark_to_win_ids mark pre).any (fun p => p.1 == mark) = true := by
      rw [List.any_eq_true]
      refine ⟨(p0.1, pre), ?_, by simpa using hp0key⟩
      exact List.mem_of_find?_eq_some (find?_setMark _ _ _ _ hfind)
    have hfind1 : (setMark st.mark_to_win_ids mark pre).find? (fun p => p.1 == mark)
        = some (p0.1, pre) := find?_setMark _ _ _ _ hfind
    unfold toggle_mark entryOrDefault
    rw [hfw]
    simp [hany1, hfind1, hpre_not]
    rw [setMark_setMark, ← hpre_eq,
      setMark_find?_self st.mark_to_win_ids mark p0 hkeys hfind]

/-- Claim C9 as stated is false: with an initially empty registry, two
`ToggleMark`s with mark "m" leave the registry with a materialized empty entry
for "m" (from `entry().or_default()`), not equal to the original registry. -/
theorem C9_counterexample :
    State.empty.mark_to_win_ids = [] ∧
    (toggle_mark envM "m" (toggle_mark envM "m" State.empty).state).state.mark_to_win_ids
      = [("m", [])] := by decide

/-- Witness for `C9_theorem` at concrete inputs, exercising both restore
cases: focused id 7 absent from mark "m"'s list, and focused id 7 as the last
element of mark "m"'s list. -/
theorem C9_witness :
    ((toggle_mark envM "m" (toggle_mark envM "m" stC9).state).state.mark_to_win_ids
      = stC9.mark_to_win_ids) ∧
    ((toggle_mark envM "m" (toggle_mark envM "m" stC9b).state).state.mark_to_win_ids
      = stC9b.mark_to_win_ids) := by
  constructor
  · exact C9_theorem envM "m" stC9 (mkWin 7 true) rfl (by decide) (by decide)
      (by
        intro p hp _
        rcases List.mem_singleton.mp hp with rfl
        exact Or.inl (by decide))
  · exact C9_theorem envM "m" stC9b (mkWin 7 true) rfl (by decide) (by decide)
      (by
        intro p hp _
        rcases List.mem_singleton.mp hp with rfl
        exact Or.inr ⟨[9], rfl, by decide⟩)

/-! ## C2: the single-focus invariant of the state store -/

/-- Setting an index back to the element already there is the identity. -/
theorem set_getElem_self' {α : Type} :
    ∀ (l : List α) (i : Nat) (h : i < l.length), l.set i l[i] = l
  | _ :: _, 0, _ => rfl
  | a :: t, i + 1, h => by
    have ih := set_getElem_self' t i (by simpa using h)
    simp [List.set_cons_succ, ih]

/-- Replacing any element of a `countP`-free list keeps the count at most 1. -/
theorem countP_set_le_one {α : Type} (p : α → Bool) :
    ∀ (l : List α) (i : Nat) (a : α), l.countP p = 0 → (l.set i a).countP p ≤ 1
  | [], _, _, _ => by simp
  | x :: t, i, a, h => by
    rw [List.countP_cons] at h
    have hx : (if p x then 1 else 0) = 0 ∧ t.countP p = 0 := by omega
    cases i with
    | zero =>
      rw [List.set_cons_zero, List.countP_cons, hx.2]
      cases p a <;> simp
    | succ j =>
      have ih := countP_set_le_one p t j a hx.2
      rw [List.set_cons_succ, List.countP_cons, hx.1]
      omega

/-- Replacing an element by one not satisfying `p` cannot increase `countP`. -/
theorem countP_set_le_of_neg {α : Type} (p : α → Bool) :
    ∀ (l : List α) (i : Nat) (a : α), p a = false → (l.set i a).countP p ≤ l.countP p
  | [], _, _, _ => by simp
  | x :: t, i, a, h => by
    cases i with
    | zero =>
      rw [List.set_cons_zero, List.countP_cons, List.countP_cons, h]
      simp
    | succ j =>
      have ih := countP_set_le_of_neg p t j a h
      rw [List.set_cons_succ, List.countP_cons, List.countP_cons]
      omega

/-- A list is a permutation of removing its `i`-th element and appending it. -/
theorem perm_eraseIdx_append {α : Type} :
    ∀ (l : List α) (i : Nat) (a : α), l[i]? = some a → List.Perm l (l.eraseIdx i ++ [a])
  | x :: t, 0, a, h => by
    obtain rfl : x = a := by simpa using h
    simpa using (List.perm_append_singleton x t).symm
  | x :: t, i + 1, a, h => by
    have ih := perm_eraseIdx_append t i a (by simpa using h)
    simpa using ih.cons x

/-- `clearFocusFlags` keeps the id list. -/
theorem clearFocusFlags_ids (l : List Window) :
    (clearFocusFlags l).map Window.id = l.map Window.id := by
  unfold clearFocusFlags
  rw [List.map_map]
  rfl

/-- `clearFocusFlags` leaves no focused window. -/
theorem clearFocusFlags_countP (l : List Window) :
    (clearFocusFlags l).countP Window.is_focused = 0 := by
  unfold clearFocusFlags
  rw [List.countP_map, List.countP_eq_zero]
  intro a _
  simp

/-- Rewriting the id list after replacing an element by one with the same id. -/
theorem set_getElem_map_self (l : List Window) (idx : Nat) (hlt : idx < l.length) :
    (l.map Window.id).set idx l[idx].id = l.map Window.id := by
  have h2 : idx < (l.map Window.id).length := by simpa using hlt
  have h3 : l[idx].id = (l.map Window.id)[idx] := (List.getElem_map _).symm
  rw [h3, set_getElem_self' _ idx h2]

/-- One `OpOK` store operation preserves the store invariant. -/
theorem stepPreserves (st : State) (op : StoreOp) (hinv : StInv st) (hok : OpOK st op) :
    StInv (applyOp st op) := by
  obtain ⟨hnd, hcnt⟩ := hinv
  cases op with
  | register w =>
    have happly : applyOp st (StoreOp.register w) = (st.register_window w).2 := rfl
    rw [happly]
    cases hidx : st.all_windows.findIdx? (fun x => x.id == w.id) with
    | some idx =>
      have hfound := hidx
      rw [List.findIdx?_eq_some_iff_getElem] at hfound
      obtain ⟨hlt, hp, _⟩ := hfound
      have hid : st.all_windows[idx].id = w.id := by simpa using hp
      cases hfoc : w.is_focused with
      | true =>
        have hstate : (st.register_window w).2
            = { st with all_windows := (clearFocusFlags st.all_windows).set idx w } := by
          unfold State.register_window
          rw [hidx]
          simp [hfoc]
        rw [hstate]
        constructor
        · show (((clearFocusFlags st.all_windows).set idx w).map Window.id).Nodup
          rw [List.map_set, clearFocusFlags_ids, ← hid, set_getElem_map_self st.all_windows idx hlt]
          exact hnd
        · exact countP_set_le_one Window.is_focused (clearFocusFlags st.all_windows) idx w
            (clearFocusFlags_countP _)
      | false =>
        have hstate : (st.register_window w).2
            = { st with all_windows := st.all_windows.set idx w } := by
          unfold State.register_window
          rw [hidx]
          simp [hfoc]
        rw [hstate]
        constructor
        · show ((st.all_windows.set idx w).map Window.id).Nodup
          rw [List.map_set, ← hid, set_getElem_map_self st.all_windows idx hlt]
          exact hnd
        · exact le_trans (countP_set_le_of_neg Window.is_focused st.all_windows idx w hfoc) hcnt
    | none =>
      have hall := hidx
      rw [List.findIdx?_eq_none_iff] at hall
      have hfoc : w.is_focused = false := by
        cases hok with
        | inl h => exact h
        | inr h =>
          rw [List.any_eq_true] at h
          obtain ⟨x, hx, hpx⟩ := h
          exact absurd hpx (by simpa using hall x hx)
      have hstate : (st.register_window w).2
          = { st with all_windows := st.all_windows ++ [w] } := by
        unfold State.register_window
        rw [hidx]
      rw [hstate]
      constructor
      · show ((st.all_windows ++ [w]).map Window.id).Nodup
        have hwid : w.id ∉ st.all_windows.map Window.id := by
          intro hmem
          simp only [List.mem_map] at hmem
          obtain ⟨x, hx, hxa⟩ := hmem
          have hne := hall x hx
          simp only [beq_eq_false_iff_ne] at hne
          exact hne hxa
        rw [List.map_append]
        simp only [List.map_cons, List.map_nil]
        rw [(List.perm_append_singleton w.id (st.all_windows.map Window.id)).nodup_iff]
        exact List.nodup_cons.mpr ⟨hwid, hnd⟩
      · show (st.all_windows ++ [w]).countP Window.is_focused ≤ 1
        rw [List.countP_append, List.countP_cons, hfoc]
        simpa using hcnt
  | remove i =>
    have happly : applyOp st (StoreOp.remove i) = (st.remove_window i).2 := rfl
    rw [happly]
    unfold State.remove_window
    constructor
    · exact hnd.sublist ((List.filter_sublist _).map Window.id)
    · exact le_trans ((List.filter_sublist _).countP_le Window.is_focused) hcnt
  | focusChanged o =>
    have happly : applyOp st (StoreOp.focusChanged o) = (st.window_focus_changed o).2 := rfl
    rw [happly]
    cases o with
    | none =>
      have hstate : (st.window_focus_changed none).2
          = { st with all_windows := clearFocusFlags st.all_windows } := rfl
      rw [hstate]
      constructor
      · show ((clearFocusFlags st.all_windows).map Window.id).Nodup
        rw [clearFocusFlags_ids]
        exact hnd
      · show (clearFocusFlags st.all_windows).countP Window.is_focused ≤ 1
        rw [clearFocusFlags_countP]
        omega
    | some i =>
      have hids : (st.all_windows.map (fun w => { w with is_focused := w.id == i })).map
          Window.id = st.all_windows.map Window.id := by
        rw [List.map_map]
        rfl
      have hcnt' : (st.all_windows.map (fun w => { w with is_focused := w.id == i })).countP
          Window.is_focused ≤ 1 := by
        rw [List.countP_map]
        have h1 : (st.all_windows.countP (Window.is_focused ∘ fun w =>
            { w with is_focused := w.id == i }))
            = (st.all_windows.map Window.id).countP (· == i) := by
          rw [List.countP_map]
          rfl
        rw [h1]
        exact List.nodup_iff_count_le_one.mp hnd i
      have hnd' : ((st.all_windows.map (fun w => { w with is_focused := w.id == i })).map
          Window.id).Nodup := by rw [hids]; exact hnd
      cases hfi : (st.all_windows.map (fun w => { w with is_focused := w.id == i })).findIdx?
          (fun w => w.is_focused) with
      | none =>
        have hstate : (st.window_focus_changed (some i)).2
            = { st with all_windows :=
                st.all_windows.map (fun w => { w with is_focused := w.id == i }) } := by
          unfold State.window_focus_changed
          simp only [hfi]
        rw [hstate]
        exact ⟨hnd', hcnt'⟩
      | some idx =>
        cases hget : (st.all_windows.map (fun w => { w with is_focused := w.id == i }))[idx]? with
        | none =>
          have hstate : (st.window_focus_changed (some i)).2
              = { st with all_windows :=
                  st.all_windows.map (fun w => { w with is_focused := w.id == i }) } := by
            unfold State.window_focus_changed
            simp only [hfi, hget]
          rw [hstate]
          exact ⟨hnd', hcnt'⟩
        | some win =>
          have hstate : (st.window_focus_changed (some i)).2
              = { st with all_windows :=
                  (st.all_windows.map (fun w => { w with is_focused := w.id == i })).eraseIdx idx
                    ++ [win] } := by
            unfold State.window_focus_changed
            simp only [hfi, hget]
          rw [hstate]
          have hperm := perm_eraseIdx_append _ idx win hget
          constructor
          · show ((((st.all_windows.map (fun w : Window => { w with is_focused := w.id == i })).eraseIdx
                idx) ++ [win]).map Window.id).Nodup
            rw [← (hperm.map Window.id).nodup_iff]
            exact hnd'
          · show (((st.all_windows.map (fun w : Window => { w with is_focused := w.id == i })).eraseIdx
                idx) ++ [win]).countP Window.is_focused ≤ 1
            rw [← hperm.countP_eq Window.is_focused]
            exact hcnt'

/-- An `OpOK` sequence preserves the store invariant. -/
theorem seqPreserves : ∀ (ops : List StoreOp) (st : State),
    StInv st → SafeSeq st ops → StInv (applySeq st ops)
  | [], _, hinv, _ => hinv
  | op :: rest, st, hinv, hsafe =>
    seqPreserves rest (applyOp st op) (stepPreserves st op hinv hsafe.1) hsafe.2

/-- Claim C2, amended: starting from the empty state, at most one window is
focused after any sequence of store operations **provided** every registered
previously-unknown window arrives unfocused (`SafeSeq`); registering a known
window with the focused flag set clears all other focus flags first, but
registering an unknown focused window appends it without clearing — see the
counterexample. -/
theorem C2_theorem (ops : List StoreOp) (h : SafeSeq State.empty ops) :
    (applySeq State.empty ops).all_windows.countP Window.is_focused ≤ 1 :=
  (seqPreserves ops State.empty ⟨by simp [State.empty], by simp [State.empty]⟩ h).2

/-- Claim C2 as stated is false: registering focused window 1 and then the
previously unknown focused window 2 leaves two windows focused at once. -/
theorem C2_counterexample :
    ((applySeq State.empty
        [StoreOp.register (mkWin 1 true), StoreOp.register (mkWin 2 true)]).all_windows.countP
      Window.is_focused) = 2 := by decide

/-- Witness for `C2_theorem` at a concrete operation sequence. -/
theorem C2_witness :
    (applySeq State.empty
        [StoreOp.register (mkWin 1 false), StoreOp.focusChanged (some 1),
         StoreOp.remove 1]).all_windows.countP Window.is_focused ≤ 1 :=
  C2_theorem
    [StoreOp.register (mkWin 1 false), StoreOp.focusChanged (some 1), StoreOp.remove 1]
    ⟨Or.inl rfl, trivial, trivial, trivial⟩

/-! ## C4: the selection order of `focus` -/

theorem keyLe_total (mem : List Nat) : ∀ a b, keyLe mem a b ∨ keyLe mem b a := by
  intro a b
  unfold keyLe
  omega

theorem keyLe_trans (mem : List Nat) :
    ∀ a b c, keyLe mem a b → keyLe mem b c → keyLe mem a c := by
  intro a b c hab hbc
  unfold keyLe at hab hbc ⊢
  omega

theorem keyLe_refl (mem : List Nat) (a : Window) : keyLe mem a a :=
  Or.inr ⟨rfl, le_refl _⟩

/-- On a pair of which not both windows are focused, the code's comparator
orders exactly like `keyLe`. -/
theorem focusLe_iff_keyLe (mem : List Nat) (a b : Window)
    (h : a.is_focused = true → b.is_focused = true → False) :
    focusLe mem a b ↔ keyLe mem a b := by
  unfold focusLe focusCmp keyLe sortClass
  cases ha : a.is_focused with
  | true =>
    cases hb : b.is_focused with
    | true => exact (h ha hb).elim
    | false =>
      cases hva : mem.contains a.id <;> cases hvb : mem.contains b.id <;>
        simp [Nat.compare_eq_gt]
  | false =>
    cases hb : b.is_focused with
    | true =>
      cases hva : mem.contains a.id <;> cases hvb : mem.contains b.id <;>
        simp [Nat.compare_eq_gt]
    | false =>
      cases hva : mem.contains a.id <;> cases hvb : mem.contains b.id <;>
        simp [Nat.compare_eq_gt]

/-- `orderedInsert` only depends on how the relation behaves on the inserted
element against list members distinct from it. -/
theorem orderedInsert_congr {α : Type} (r r' : α → α → Prop) [DecidableRel r]
    [DecidableRel r'] (a : α) :
    ∀ (l : List α), (∀ b ∈ l, a ≠ b → (r a b ↔ r' a b)) → a ∉ l →
      List.orderedInsert r a l = List.orderedInsert r' a l
  | [], _, _ => rfl
  | b :: l, h, hna => by
    have hab : a ≠ b := by
      intro e
      exact hna (e ▸ List.mem_cons_self a l)
    have hiff := h b (List.mem_cons_self b l) hab
    by_cases hr : r a b
    · simp only [List.orderedInsert, if_pos hr, if_pos (hiff.mp hr)]
    · simp only [List.orderedInsert, if_neg hr, if_neg (fun hr' => hr (hiff.mpr hr'))]
      rw [orderedInsert_congr r r' a l (fun c hc hac => h c (List.mem_cons_of_mem b hc) hac)
        (fun hc => hna (List.mem_cons_of_mem b hc))]

/-- `insertionSort` of a duplicate-free list only depends on how the relation
behaves on pairs of distinct list members. -/
theorem insertionSort_congr {α : Type} (r r' : α → α → Prop) [DecidableRel r]
    [DecidableRel r'] :
    ∀ (l : List α), l.Nodup → (∀ a ∈ l, ∀ b ∈ l, a ≠ b → (r a b ↔ r' a b)) →
      List.insertionSort r l = List.insertionSort r' l
  | [], _, _ => rfl
  | a :: l, hnd, h => by
    have hnd' := List.nodup_cons.mp hnd
    have ih := insertionSort_congr r r' l hnd'.2
      (fun x hx y hy => h x (List.mem_cons_of_mem a hx) y (List.mem_cons_of_mem a hy))
    simp only [List.insertionSort]
    rw [ih]
    apply orderedInsert_congr
    · intro b hb hab
      have hb' : b ∈ l := (List.perm_insertionSort r' l).mem_iff.mp hb
      exact h a (List.mem_cons_self a l) b (List.mem_cons_of_mem a hb') hab
    · intro hmem
      exact hnd'.1 ((List.perm_insertionSort r' l).mem_iff.mp hmem)

/-- The head of the sorted candidate list is a candidate that is `keyLe`-least
among all candidates. -/
theorem focus_select_min (mem : List Nat) (cands : List Window)
    (hnd : cands.Nodup)
    (hfoc : ∀ a ∈ cands, ∀ b ∈ cands, a.is_focused = true → b.is_focused = true → a = b)
    (sel : Window) (rest : List Window)
    (hsort : List.insertionSort (focusLe mem) cands = sel :: rest) :
    sel ∈ cands ∧ ∀ x ∈ cands, keyLe mem sel x := by
  have hag : ∀ a ∈ cands, ∀ b ∈ cands, a ≠ b → (focusLe mem a b ↔ keyLe mem a b) := by
    intro a ha b hb hab
    apply focusLe_iff_keyLe
    intro haf hbf
    exact hab (hfoc a ha b hb haf hbf)
  have heq := insertionSort_congr (focusLe mem) (keyLe mem) cands hnd hag
  rw [heq] at hsort
  haveI : IsTotal Window (keyLe mem) := ⟨keyLe_total mem⟩
  haveI : IsTrans Window (keyLe mem) := ⟨keyLe_trans mem⟩
  have hsorted := List.sorted_insertionSort (keyLe mem) cands
  rw [hsort] at hsorted
  have hperm := List.perm_insertionSort (keyLe mem) cands
  rw [hsort] at hperm
  refine ⟨hperm.mem_iff.mp (List.mem_cons_self sel rest), ?_⟩
  intro x hx
  have hx' : x ∈ sel :: rest := hperm.mem_iff.mpr hx
  rcases List.mem_cons.mp hx' with rfl | hxr
  · exact keyLe_refl mem x
  · exact List.rel_of_sorted_cons hsorted x hxr

/-- `focus` on an empty candidate set: the distinguished error, with the cycle
memory cleared by the full-cycle check (vacuously true on no candidates). -/
theorem focusOnWins_empty (env : Env) (mo : MatchOptions) (st : State) (wins0 : List Window)
    (hnil : focusCands env.rmatch mo wins0 = []) :
    focusOnWins env mo st wins0
      = ⟨Except.error NO_MATCHING_WINDOW, { st with already_focused_win_ids := [] }, []⟩ := by
  unfold focusOnWins focusSel
  rw [hnil]
  rfl

/-- `focus` on a non-empty candidate set selects a `keyLe`-least candidate,
records it in the cycle memory unless present, and issues its focus action. -/
theorem focusOnWins_spec (env : Env) (mo : MatchOptions) (st : State) (wins0 : List Window)
    (hnd : (wins0.map Window.id).Nodup)
    (hfoc : ∀ a ∈ wins0, ∀ b ∈ wins0, a.is_focused = true → b.is_focused = true → a = b)
    (hne : focusCands env.rmatch mo wins0 ≠ []) :
    ∃ sel, sel ∈ focusCands env.rmatch mo wins0 ∧
      (∀ x ∈ focusCands env.rmatch mo wins0,
        keyLe (effMem st.already_focused_win_ids (focusCands env.rmatch mo wins0)) sel x) ∧
      focusOnWins env mo st wins0 = ⟨(focus_window_by_id env sel.id).1, { st with already_focused_win_ids := recordSel (effMem st.already_focused_win_ids (focusCands env.rmatch mo wins0)) sel.id }, [NAction.FocusWindow sel.id]⟩ := by
  have hndw : wins0.Nodup := List.Nodup.of_map Window.id hnd
  have hndc : (focusCands env.rmatch mo wins0).Nodup := hndw.filter _
  have hfc : ∀ a ∈ focusCands env.rmatch mo wins0, ∀ b ∈ focusCands env.rmatch mo wins0,
      a.is_focused = true → b.is_focused = true → a = b := by
    intro a ha b hb haf hbf
    exact hfoc a (List.mem_of_mem_filter ha) b (List.mem_of_mem_filter hb) haf hbf
  have hsne : List.insertionSort
      (focusLe (effMem st.already_focused_win_ids (focusCands env.rmatch mo wins0)))
      (focusCands env.rmatch mo wins0) ≠ [] := by
    intro h0
    apply hne
    have hp := List.perm_insertionSort
      (focusLe (effMem st.already_focused_win_ids (focusCands env.rmatch mo wins0)))
      (focusCands env.rmatch mo wins0)
    rw [h0] at hp
    exact (hp.symm).eq_nil
  obtain ⟨sel, rest, hsort⟩ := List.exists_cons_of_ne_nil hsne
  have hmin := focus_select_min _ _ hndc hfc sel rest hsort
  refine ⟨sel, hmin.1, hmin.2, ?_⟩
  unfold focusOnWins focusSel
  rw [hsort]
  rfl

/-- Claim C4: `focus` orders the matching candidates with the focused window
last, previously-visited ids (relative to the effective cycle memory `effMem`,
i.e. after the full-cycle reset) after unvisited ids, and ties by ascending
numeric id — stated as: the selected window is a matching candidate that is
`keyLe`-least among all matching candidates.  The selected id is recorded in
the cycle memory unless already present (`recordSel`), and when no window
matches, the command fails with exactly `NO_MATCHING_WINDOW`.  The hypotheses
are the compositor's guarantees: distinct window ids and at most one focused
window. -/
theorem C4_theorem (env : Env) (mo : MatchOptions) (st : State) (wins0 : List Window)
    (hw : env.windowsResp = Except.ok wins0)
    (hnd : (wins0.map Window.id).Nodup)
    (hfoc : ∀ a ∈ wins0, ∀ b ∈ wins0, a.is_focused = true → b.is_focused = true → a = b) :
    (focusCands env.rmatch mo wins0 = [] →
      (focus env mo st).result = Except.error NO_MATCHING_WINDOW) ∧
    (focusCands env.rmatch mo wins0 ≠ [] →
      ∃ sel, sel ∈ focusCands env.rmatch mo wins0 ∧
        (∀ x ∈ focusCands env.rmatch mo wins0,
          keyLe (effMem st.already_focused_win_ids (focusCands env.rmatch mo wins0)) sel x) ∧
        (focus env mo st).trace = [NAction.FocusWindow sel.id] ∧
        (focus env mo st).state.already_focused_win_ids =
          recordSel (effMem st.already_focused_win_ids (focusCands env.rmatch mo wins0))
            sel.id) := by
  have hfocus : focus env mo st = focusOnWins env mo st wins0 := by
    unfold focus
    rw [hw]
  constructor
  · intro hnil
    rw [hfocus, focusOnWins_empty env mo st wins0 hnil]
  · intro hne
    obtain ⟨sel, hmem, hmin, heq⟩ := focusOnWins_spec env mo st wins0 hnd hfoc hne
    refine ⟨sel, hmem, hmin, ?_, ?_⟩
    · rw [hfocus, heq]
    · rw [hfocus, heq]

/-- Witness for `C4_theorem` at a concrete input (the empty-candidate case of
the conjunction, every hypothesis discharged concretely). -/
theorem C4_witness :
    (focus envC4e moNone State.empty).result = Except.error NO_MATCHING_WINDOW :=
  (C4_theorem envC4e moNone State.empty [] rfl (by simp) (by simp)).1 rfl

/-! ## C5: period-N cycling of repeated `Focus` commands -/

/-- In a sorted duplicate-free list, everything in `take k` is below entry
`k`. -/
theorem lt_getElem_of_mem_take (s : List Nat) (hs : s.Sorted (fun a b => a ≤ b))
    (hnd : s.Nodup) (k : Nat) (hk : k < s.length) :
    ∀ x ∈ s.take k, x < s[k] := by
  intro x hx
  obtain ⟨j, hj, hxj⟩ := List.getElem_of_mem hx
  have hjk : j < k := by
    simp only [List.length_take] at hj
    omega
  have hjs : j < s.length := by
    simp only [List.length_take] at hj
    omega
  have hsx : (s.take k)[j] = s[j] := List.getElem_take s
  have hslt : s.Sorted (fun a b => a < b) := hs.lt_of_le hnd
  have hlt : s[j] < s[k] := List.pairwise_iff_getElem.mp hslt j k hjs hk hjk
  rw [← hxj, hsx]
  exact hlt

/-- In a sorted list, a member outside `take k` is at least entry `k`. -/
theorem getElem_le_of_mem_not_take (s : List Nat) (hs : s.Sorted (fun a b => a ≤ b))
    (k : Nat) (hk : k < s.length) (x : Nat) (hxs : x ∈ s) (hxt : x ∉ s.take k) :
    s[k] ≤ x := by
  obtain ⟨j, hj, hxj⟩ := List.getElem_of_mem hxs
  have hkj : k ≤ j := by
    by_contra hlt
    push_neg at hlt
    apply hxt
    have hjt : j < (s.take k).length := by
      simp only [List.length_take]
      omega
    have hsx : (s.take k)[j] = s[j] := List.getElem_take s
    rw [← hxj, ← hsx]
    exact List.getElem_mem hjt
  rcases Nat.eq_or_lt_of_le hkj with heq | hlt2
  · subst heq
    rw [← hxj]
  · have hle : s[k] ≤ s[j] := List.pairwise_iff_getElem.mp hs k j hk hj hlt2
    rw [← hxj]
    exact hle

/-- With every window matching and none focused, `focus` with effective cycle
memory `take k` of the ascending id list selects exactly the `k`-th smallest
id and extends the memory to `take (k+1)`. -/
theorem focus_min_unvisited (env : Env) (mo : MatchOptions) (st : State) (wins0 : List Window)
    (hw : env.windowsResp = Except.ok wins0)
    (hall : ∀ w ∈ wins0, window_matches env.rmatch w mo = true)
    (hnofoc : ∀ w ∈ wins0, w.is_focused = false)
    (hnd : (wins0.map Window.id).Nodup)
    (k : Nat) (hk : k < (sortedIds wins0).length)
    (hmem : effMem st.already_focused_win_ids wins0 = (sortedIds wins0).take k) :
    focus env mo st = ⟨(focus_window_by_id env ((sortedIds wins0)[k])).1, { st with already_focused_win_ids := (sortedIds wins0).take (k + 1) }, [NAction.FocusWindow ((sortedIds wins0)[k])]⟩ := by
  have hcands : focusCands env.rmatch mo wins0 = wins0 := by
    unfold focusCands
    exact List.filter_eq_self.mpr hall
  have hsperm : List.Perm (sortedIds wins0) (wins0.map Window.id) :=
    List.perm_insertionSort _ _
  have hssort : (sortedIds wins0).Sorted (fun a b => a ≤ b) :=
    List.sorted_insertionSort _ _
  have hsnd : (sortedIds wins0).Nodup := (hsperm.nodup_iff).mpr hnd
  have hlenw : (sortedIds wins0).length = wins0.length := by
    rw [hsperm.length_eq, List.length_map]
  have hne : focusCands env.rmatch mo wins0 ≠ [] := by
    rw [hcands]
    intro h0
    subst h0
    simp only [List.length_nil] at hlenw
    omega
  obtain ⟨sel, hselmem, hselmin, heq⟩ := focusOnWins_spec env mo st wins0 hnd
    (fun a ha _ _ haf _ => absurd haf (by simp [hnofoc a ha])) hne
  rw [hcands] at hselmem hselmin heq
  rw [hmem] at hselmin heq
  have hskmem : (sortedIds wins0)[k] ∈ wins0.map Window.id :=
    hsperm.mem_iff.mp (List.getElem_mem hk)
  obtain ⟨w0, hw0mem, hw0id⟩ := List.mem_map.mp hskmem
  have hknot : (sortedIds wins0)[k] ∉ (sortedIds wins0).take k := by
    intro hmem2
    exact lt_irrefl _ (lt_getElem_of_mem_take _ hssort hsnd k hk _ hmem2)
  have hw0cont : ((sortedIds wins0).take k).contains w0.id = false := by
    rw [hw0id]
    simp [hknot]
  have hselkey := hselmin w0 hw0mem
  have hself : sel.is_focused = false := hnofoc sel hselmem
  have hw0f : w0.is_focused = false := hnofoc w0 hw0mem
  have hselcont : ((sortedIds wins0).take k).contains sel.id = false := by
    cases hc : ((sortedIds wins0).take k).contains sel.id with
    | false => rfl
    | true =>
      exfalso
      unfold keyLe sortClass at hselkey
      rw [hself, hw0f, hc, hw0cont] at hselkey
      simp at hselkey
  have hselle : sel.id ≤ (sortedIds wins0)[k] := by
    unfold keyLe sortClass at hselkey
    rw [hself, hw0f, hselcont, hw0cont] at hselkey
    simp at hselkey
    rw [← hw0id]
    exact hselkey
  have hselin : sel.id ∈ sortedIds wins0 :=
    hsperm.mem_iff.mpr (List.mem_map.mpr ⟨sel, hselmem, rfl⟩)
  have hselnot : sel.id ∉ (sortedIds wins0).take k := by
    intro hmem3
    simp [hmem3] at hselcont
  have hskle : (sortedIds wins0)[k] ≤ sel.id :=
    getElem_le_of_mem_not_take _ hssort k hk sel.id hselin hselnot
  have hselid : sel.id = (sortedIds wins0)[k] := le_antisymm hselle hskle
  have hrecord : recordSel ((sortedIds wins0).take k) sel.id
      = (sortedIds wins0).take (k + 1) := by
    unfold recordSel
    rw [hselcont]
    simp only [Bool.false_eq_true, if_false]
    rw [hselid]
    have h := List.take_concat_get (sortedIds wins0) k hk
    rw [List.concat_eq_append] at h
    exact h
  have hfocus : focus env mo st = focusOnWins env mo st wins0 := by
    unfold focus
    rw [hw]
  rw [hfocus, heq, hrecord, hselid]

/-- Composition of `focusRun`. -/
theorem focusRun_add (env : Env) (mo : MatchOptions) :
    ∀ (m n : Nat) (st : State),
      focusRun env mo (m + n) st
        = ((focusRun env mo m st).1 ++ (focusRun env mo n (focusRun env mo m st).2).1,
           (focusRun env mo n (focusRun env mo m st).2).2)
  | 0, n, st => by simp [focusRun]
  | m + 1, n, st => by
    have hadd : m + 1 + n = (m + n) + 1 := by omega
    rw [hadd]
    have ih := focusRun_add env mo m n (focus env mo st).state
    simp only [focusRun, ih]
    simp

/-- Structure eta for the state record. -/
theorem State.eta_already (st : State) :
    { st with already_focused_win_ids := st.already_focused_win_ids } = st := rfl

/-- Invariant of repeated `focus` from memory `take k`: `m` more invocations
(with `k + m` within range) select the `k`-th through `(k+m-1)`-th smallest
ids in order and leave the memory at `take (k+m)`. -/
theorem focusRun_inv (env : Env) (mo : MatchOptions) (wins0 : List Window)
    (hw : env.windowsResp = Except.ok wins0)
    (hall : ∀ w ∈ wins0, window_matches env.rmatch w mo = true)
    (hnofoc : ∀ w ∈ wins0, w.is_focused = false)
    (hnd : (wins0.map Window.id).Nodup) :
    ∀ (m k : Nat) (st : State), k + m ≤ (sortedIds wins0).length →
      st.already_focused_win_ids = (sortedIds wins0).take k →
      focusRun env mo m st
        = (((sortedIds wins0).drop k).take m |>.map (fun i => [NAction.FocusWindow i]),
           { st with already_focused_win_ids := (sortedIds wins0).take (k + m) })
  | 0, k, st, _, hmem => by
    simp only [focusRun, List.take_zero, List.map_nil, Nat.add_zero]
    rw [← hmem, State.eta_already]
  | m + 1, k, st, hrange, hmem => by
    have hk : k < (sortedIds wins0).length := by omega
    have heff : effMem st.already_focused_win_ids wins0 = (sortedIds wins0).take k := by
      unfold effMem
      rw [hmem]
      have hnotall : ¬(wins0.all
          (fun w => ((sortedIds wins0).take k).contains w.id) = true) := by
        intro hallv
        rw [List.all_eq_true] at hallv
        have hskmem : (sortedIds wins0)[k] ∈ wins0.map Window.id :=
          (List.perm_insertionSort _ _).mem_iff.mp (List.getElem_mem hk)
        obtain ⟨w0, hw0mem, hw0id⟩ := List.mem_map.mp hskmem
        have hv := hallv w0 hw0mem
        have hknot : (sortedIds wins0)[k] ∉ (sortedIds wins0).take k := by
          intro hmem2
          exact lt_irrefl _ (lt_getElem_of_mem_take _ (List.sorted_insertionSort _ _)
            (((List.perm_insertionSort _ _).nodup_iff).mpr hnd) k hk _ hmem2)
        simp at hv
        exact hknot (hw0id ▸ hv)
      rw [if_neg hnotall]
    have hstep := focus_min_unvisited env mo st wins0 hw hall hnofoc hnd k hk heff
    have ih := focusRun_inv env mo wins0 hw hall hnofoc hnd m (k + 1)
      { st with already_focused_win_ids := (sortedIds wins0).take (k + 1) }
      (by omega) rfl
    simp only [focusRun, hstep]
    rw [ih]
    have hdrop : (sortedIds wins0).drop k
        = (sortedIds wins0)[k] :: (sortedIds wins0).drop (k + 1) :=
      List.drop_eq_getElem_cons hk
    rw [hdrop]
    simp only [List.take_succ_cons, List.map_cons]
    have hadd : k + 1 + m = k + (m + 1) := by omega
    rw [hadd]

/-- Claim C5: against a fixed candidate set in which every window matches the
query and none is focused, starting from empty cycle memory, `N + 1` repeated
`Focus` invocations issue focus actions for exactly the `N` distinct candidate
ids in ascending order (`sortedIds`, a permutation of all candidate ids —
visiting all `N` windows with no repetition) followed by the first id again:
the `(N+1)`-th invocation finds the cycle memory full, clears it, and restarts
the cycle. -/
theorem C5_theorem (env : Env) (mo : MatchOptions) (st : State) (wins0 : List Window)
    (hw : env.windowsResp = Except.ok wins0)
    (hall : ∀ w ∈ wins0, window_matches env.rmatch w mo = true)
    (hnofoc : ∀ w ∈ wins0, w.is_focused = false)
    (hnd : (wins0.map Window.id).Nodup)
    (hne : wins0 ≠ [])
    (hmem0 : st.already_focused_win_ids = []) :
    (focusRun env mo (wins0.length + 1) st).1
      = (sortedIds wins0 ++ (sortedIds wins0).take 1).map
          (fun i => [NAction.FocusWindow i]) ∧
    (sortedIds wins0).Nodup ∧
    (sortedIds wins0).length = wins0.length ∧
    ∀ w ∈ wins0, w.id ∈ sortedIds wins0 := by
  have hsperm : List.Perm (sortedIds wins0) (wins0.map Window.id) :=
    List.perm_insertionSort _ _
  have hlen : (sortedIds wins0).length = wins0.length := by
    rw [hsperm.length_eq, List.length_map]
  have hpos : 0 < wins0.length := List.length_pos.mpr hne
  have hcover : ∀ w ∈ wins0, w.id ∈ sortedIds wins0 := by
    intro w hwin
    exact hsperm.mem_iff.mpr (List.mem_map.mpr ⟨w, hwin, rfl⟩)
  have htake0 : st.already_focused_win_ids = (sortedIds wins0).take 0 := by
    rw [hmem0]
    rfl
  have hrun := focusRun_inv env mo wins0 hw hall hnofoc hnd wins0.length 0 st
    (by omega) htake0
  have htN : (sortedIds wins0).take wins0.length = sortedIds wins0 := by
    rw [← hlen]
    exact List.take_length _
  have hsplit := focusRun_add env mo wins0.length 1 st
  have hk0 : 0 < (sortedIds wins0).length := by omega
  have heff : effMem ((focusRun env mo wins0.length st).2).already_focused_win_ids wins0
      = (sortedIds wins0).take 0 := by
    rw [hrun]
    unfold effMem
    have hallv : wins0.all
        (fun w => ((sortedIds wins0).take (0 + wins0.length)).contains w.id) = true := by
      rw [List.all_eq_true]
      intro w hwin
      have hmemw : w.id ∈ (sortedIds wins0).take wins0.length := by
        rw [htN]
        exact hcover w hwin
      simp [hmemw]
    rw [if_pos hallv]
    rfl
  have hstep := focus_min_unvisited env mo ((focusRun env mo wins0.length st).2) wins0 hw
    hall hnofoc hnd 0 hk0 heff
  have hlast : (focusRun env mo 1 ((focusRun env mo wins0.length st).2)).1
      = [[NAction.FocusWindow ((sortedIds wins0)[0])]] := by
    simp only [focusRun, hstep]
  have htake1 : (sortedIds wins0).take 1 = [(sortedIds wins0)[0]] := by
    rw [List.take_succ]
    simp [List.getElem?_eq_getElem hk0]
  refine ⟨?_, hsperm.nodup_iff.mpr hnd, hlen, hcover⟩
  rw [hsplit]
  simp only [hlast]
  have htrace : (focusRun env mo wins0.length st).1
      = (sortedIds wins0).map (fun i => [NAction.FocusWindow i]) := by
    rw [hrun]
    simp only [List.drop_zero]
    rw [htN]
  rw [htrace, htake1, List.map_append]
  simp

/-- Witness for `C5_theorem` at the concrete scenario of the claim, together
with the concrete selection sequence 1, 2, 3, 1 it forces. -/
theorem C5_witness :
    ((focusRun envC5w moNone (winsC5.length + 1) State.empty).1
      = (sortedIds winsC5 ++ (sortedIds winsC5).take 1).map
          (fun i => [NAction.FocusWindow i]) ∧
     (sortedIds winsC5).Nodup ∧
     (sortedIds winsC5).length = winsC5.length ∧
     (∀ w ∈ winsC5, w.id ∈ sortedIds winsC5)) ∧
    (focusRun envC5w moNone 4 State.empty).1
      = [[NAction.FocusWindow 1], [NAction.FocusWindow 2], [NAction.FocusWindow 3],
         [NAction.FocusWindow 1]] := by
  constructor
  · exact C5_theorem envC5w moNone State.empty winsC5 rfl (by decide) (by decide) (by decide)
      (by decide) rfl
  · decide

/-! ## C3: ScratchpadToggle (modelled from the spec) -/

/-- Claim C3 (settled against the spec-modelled `scratchpad_toggle`, as the
command is absent from `src/`): with a focused window, if it is already in the
scratchpad set it is removed (order-preserving, no compositor action);
otherwise it is appended to the set and every scratchpad-set window is
relocated in insertion order — each one toggled to floating when not already
floating, then moved to the bottom workspace of the currently focused output
(`scratchpad_relocation_actions`). -/
theorem C3_theorem (env : Env) (st : State) (fw : Window) (ws : Workspace) (out : String)
    (bid_idx : Nat × Nat)
    (hfw : env.focusedWindowResp = Except.ok fw)
    (hws : st.get_focused_workspace = some ws)
    (hout : ws.output = some out)
    (hbot : st.get_bottom_workspace_id_and_idx_of_output out = some bid_idx) :
    (fw.id ∈ st.scratchpad_win_ids →
      (scratchpad_toggle env st).state.scratchpad_win_ids
          = st.scratchpad_win_ids.erase fw.id ∧
      (scratchpad_toggle env st).trace = []) ∧
    (fw.id ∉ st.scratchpad_win_ids →
      (scratchpad_toggle env st).state.scratchpad_win_ids
          = st.scratchpad_win_ids ++ [fw.id] ∧
      (scratchpad_toggle env st).trace
          = scratchpad_relocation_actions
              { st with scratchpad_win_ids := st.scratchpad_win_ids ++ [fw.id] } bid_idx.1
              (st.scratchpad_win_ids ++ [fw.id])) := by
  constructor
  · intro hmem
    have hcont : st.scratchpad_win_ids.contains fw.id = true := by simp [hmem]
    unfold scratchpad_toggle
    rw [hfw]
    dsimp only
    rw [if_pos hcont]
    exact ⟨rfl, rfl⟩
  · intro hnmem
    have hcont : st.scratchpad_win_ids.contains fw.id = false := by simp [hnmem]
    have hws' : State.get_focused_workspace
        { st with scratchpad_win_ids := st.scratchpad_win_ids ++ [fw.id] } = some ws := hws
    have hbot' : State.get_bottom_workspace_id_and_idx_of_output
        { st with scratchpad_win_ids := st.scratchpad_win_ids ++ [fw.id] } out
        = some bid_idx := hbot
    unfold scratchpad_toggle
    rw [hfw]
    dsimp only
    rw [if_neg (by simp [hnmem])]
    rw [hws']
    dsimp only
    rw [hout]
    dsimp only
    rw [hbot']
    exact ⟨rfl, rfl⟩

/-- Witness for `C3_theorem` at concrete inputs (the add-and-relocate branch:
window 7 joins window 4 in the scratchpad; 4 is already floating so it is only
moved, 7 is floated and moved, both to bottom workspace 51). -/
theorem C3_witness :
    (scratchpad_toggle envC3 stC3).state.scratchpad_win_ids = [4, 7] ∧
    (scratchpad_toggle envC3 stC3).trace
      = [NAction.MoveWindowToWorkspace 4 51 false, NAction.ToggleWindowFloating 7,
         NAction.MoveWindowToWorkspace 7 51 false] := by
  have h := (C3_theorem envC3 stC3 (mkWin 7 true)
      { id := 50, idx := 0, output := some "eDP-1", is_focused := true } "eDP-1" (51, 1)
      rfl (by decide) rfl (by decide)).2 (by decide)
  refine ⟨?_, ?_⟩
  · rw [h.1]
    decide
  · rw [h.2]
    decide

end Nirius

